import Mathlib

/-!
Verification development for the openmct repository slice: the remote-clock
request interceptor, the ObjectSearchResult component logic, and the time
conductor offset/bounds controller implied by the e2e tests and the design
document.
-/

/-! ## Remote-clock request interceptor (src/unnamed/part_000) -/

/-- The bounds object produced by the external `waitForBounds` promise:
`const { start, end } = await waitForBounds()`. -/
structure Bounds where
  start : Int
  stop : Int
deriving DecidableEq

/-- A telemetry request: the interceptor reads and overwrites its `start` and
`end` fields (here `stop`); every other field of the request object is modelled
by the opaque payload `rest`, which the interceptor never touches. -/
structure Request (α : Type) where
  start : Int
  stop : Int
  rest : α
deriving DecidableEq

/-- The active clock descriptor from `openmct.time.getContextForView()`; only
its `key` field is read by the interceptor. -/
structure Clock where
  key : String
deriving DecidableEq

/-- The mutable closure state of `remoteClockRequestInterceptor`:
`let remoteClockLoaded = false`. -/
structure InterceptorState where
  remoteClockLoaded : Bool
deriving DecidableEq

/-- Initial closure state: `remoteClockLoaded = false`. -/
def InterceptorState.init : InterceptorState := ⟨false⟩

/-- `appliesTo`: reads the active clock from the global time context and
returns the conjunction: activeClock is defined, its key equals
"remote-clock", and remoteClockLoaded is still false.  The javascript
undefined is modelled as `none`. -/
def appliesTo (activeClock : Option Clock) (st : InterceptorState) : Bool :=
  match activeClock with
  | none => false
  | some c => decide (c.key = "remote-clock") && !st.remoteClockLoaded

/-- `invoke`: awaits `waitForBounds()` (its resolved value is the `b`
argument), sets `remoteClockLoaded = true`, overwrites `request.start` and
`request.end` with the received bounds, and returns the request. -/
def invoke (st : InterceptorState) (request : Request α) (b : Bounds) :
    InterceptorState × Request α :=
  (⟨true⟩, { request with start := b.start, stop := b.stop })

/-- One observable interaction with the interceptor object: either the host
calls `invoke` (with some request and the bounds `waitForBounds` resolved to),
or it calls `appliesTo` (which reads the ambient clock but mutates nothing). -/
inductive InterceptorEvent where
  | invokeEv (request : Request Int) (b : Bounds)
  | queryEv (activeClock : Option Clock)
deriving DecidableEq

/-- The closure state after one interaction: only `invoke` mutates
`remoteClockLoaded`. -/
def stepInterceptor (st : InterceptorState) : InterceptorEvent → InterceptorState
  | .invokeEv request b => (invoke st request b).1
  | .queryEv _ => st

/-- The closure state after a sequence of interactions. -/
def runInterceptor (st : InterceptorState) (evs : List InterceptorEvent) :
    InterceptorState :=
  evs.foldl stepInterceptor st

/-! ## ObjectSearchResult component (src/src/ui/layout/search/ObjectSearchResult.vue) -/

/-- A domain object identifier, as consumed by `makeKeyString`. -/
structure Identifier where
  namespaceId : String
  key : String
deriving DecidableEq

/-- A search result object: `{name, type, identifier, originalPath}`.
`originalPath` is the path of identifiers used for serialization, preview and
navigation. -/
structure SearchResult where
  name : String
  type : String
  identifier : Identifier
  originalPath : List Identifier
deriving DecidableEq

/-- Modelled from the spec: the host `openmct.objects.makeKeyString`, the
keyed reference derived from the identifier of the result (not part of the
supplied sources). -/
def makeKeyString (i : Identifier) : String :=
  if i.namespaceId = "" then i.key else i.namespaceId ++ ":" ++ i.key

/-- One payload handed to `event.dataTransfer.setData`.  The host
serialization (`JSON.stringify`) is kept symbolic: what matters to the
component logic is which value is serialized under which key. -/
inductive DragPayload where
  | serializedObject (r : SearchResult)
  | serializedPath (p : List Identifier)
  | objectRef (r : SearchResult)
deriving DecidableEq

/-- `dragStart(event)`: sets `openmct/composable-domain-object` to the
serialized result only when `openmct.composition.checkPolicy(navigatedObject,
result)` allows it (`policyAllows`), then always sets
`openmct/domain-object-path` to the serialized original path and
`openmct/domain-object/<keyString>` to the result object. -/
def dragStart (policyAllows : Bool) (r : SearchResult) :
    List (String × DragPayload) :=
  (if policyAllows
    then [("openmct/composable-domain-object", DragPayload.serializedObject r)]
    else [])
  ++ [("openmct/domain-object-path", DragPayload.serializedPath r.originalPath),
      ("openmct/domain-object/" ++ makeKeyString r.identifier,
        DragPayload.objectRef r)]

/-- The left-to-right, non-overlapping removal of every occurrence of the
five character sequence /ROOT, exactly what splitting a string on /ROOT and
joining the pieces on the empty string produces. -/
def stripRootChars : List Char → List Char
  | '/' :: 'R' :: 'O' :: 'O' :: 'T' :: rest => stripRootChars rest
  | c :: rest => c :: stripRootChars rest
  | [] => []

/-- resultUrl.includes of the substring /ROOT: does the character sequence
/ROOT occur anywhere in the string? -/
def containsRoot : List Char → Bool
  | '/' :: 'R' :: 'O' :: 'O' :: 'T' :: _ => true
  | _ :: rest => containsRoot rest
  | [] => false

/-- When resultUrl includes the substring /ROOT, the component replaces it by
splitting on /ROOT and joining on the empty string: every occurrence of the
substring /ROOT is removed from the url; otherwise the url is unchanged. -/
def stripRootFromUrl (url : String) : String :=
  if containsRoot url.toList then String.mk (stripRootChars url.toList)
  else url

/-- The observable outcome of `clickedResult`:  either the preview branch
(default click behavior suppressed via `preventDefault`, the preview action
invoked on the original path iff its `appliesTo` guard passes), or a router
navigation to a url. -/
inductive ClickOutcome where
  | previewed (defaultPrevented : Bool) (invoked : Bool) (path : List Identifier)
  | navigated (url : String)
deriving DecidableEq

/-- `clickedResult(event)`: when `openmct.editor.isEditing()` holds, calls
`event.preventDefault()` and `this.preview()` (which invokes the preview
action on `result.originalPath` iff `previewAction.appliesTo` passes,
`previewApplies`); otherwise builds `objectPathToUrl(openmct, originalPath)`
(the host url builder, passed as `objectPathToUrl`), strips every `/ROOT`
occurrence, and calls `openmct.router.navigate` on the result. -/
def clickedResult (isEditing previewApplies : Bool)
    (objectPathToUrl : List Identifier → String) (r : SearchResult) :
    ClickOutcome :=
  if isEditing then
    ClickOutcome.previewed true previewApplies r.originalPath
  else
    ClickOutcome.navigated (stripRootFromUrl (objectPathToUrl r.originalPath))

/-! ## Time conductor offset/bounds controller

The controller itself is not among the supplied sources; only its e2e tests
(src/e2e/tests/plugins/timeConductor/timeConductor.e2e.spec.js) are.  The
definitions below are therefore modelled from the design document
(TimeBoundsController, sections 3, 4.1 and 8). -/

/-- Modelled from the spec: a real-time offset composed of
`{hours, minutes, seconds}`, each non-negative, unset components defaulting
to 0 in the initial state. -/
structure Offset where
  hours : Nat
  minutes : Nat
  seconds : Nat
deriving DecidableEq

/-- Modelled from the spec: an offset converted "into a single duration in
milliseconds". -/
def Offset.toMillis (o : Offset) : Nat :=
  o.hours * 3600000 + o.minutes * 60000 + o.seconds * 1000

/-- Modelled from the spec: a popover edit of an offset supplies any subset
of the three components (hours, mins, secs fields); a component left out of
the edit is not touched. -/
structure OffsetEdit where
  hours : Option Nat
  minutes : Option Nat
  seconds : Option Nat
deriving DecidableEq

/-- Modelled from the spec: confirming a popover edit merges the supplied
components into the stored offset; "edits to one field component do not reset
other components". -/
def applyOffsetEdit (o : Offset) (e : OffsetEdit) : Offset :=
  { hours := e.hours.getD o.hours
    minutes := e.minutes.getD o.minutes
    seconds := e.seconds.getD o.seconds }

/-- Modelled from the spec: the enumerated mode variant `Fixed | RealTime`. -/
inductive Mode where
  | Fixed
  | RealTime
deriving DecidableEq

/-- Which of the two offsets / bound fields an operation addresses. -/
inductive Which where
  | startField
  | endField
deriving DecidableEq

/-- Modelled from the spec: the TimeBoundsController state — the active mode,
the committed bounds `(start, end)` (absolute timestamps in milliseconds),
the two stored offsets, and the per-field validity flags the UI surfaces for
the fixed date inputs. -/
structure TCState where
  mode : Mode
  startBound : Int
  endBound : Int
  startOffset : Offset
  endOffset : Offset
  startFieldValid : Bool
  endFieldValid : Bool
deriving DecidableEq

/-- Modelled from the spec: recompute bounds from `now + offsets` — the start
offset looks backward from now, the end offset looks forward. -/
def recomputeBounds (now : Int) (st : TCState) : TCState :=
  { st with
    startBound := now - (st.startOffset.toMillis : Int)
    endBound := now + (st.endOffset.toMillis : Int) }

/-- Modelled from the spec: `setMode`.  "Switching into RealTime recomputes
bounds from now + offsets immediately ... Switching into Fixed freezes bounds
at their last computed value.  Switching modes never discards stored
offsets." -/
def setMode (now : Int) (m : Mode) (st : TCState) : TCState :=
  match m with
  | Mode.RealTime => recomputeBounds now { st with mode := Mode.RealTime }
  | Mode.Fixed => { st with mode := Mode.Fixed }

/-- Modelled from the spec: a clock tick re-derives the bounds while in
real-time mode and is ignored in fixed mode. -/
def tick (now : Int) (st : TCState) : TCState :=
  match st.mode with
  | Mode.RealTime => recomputeBounds now st
  | Mode.Fixed => st

/-- Modelled from the spec: `setOffset` merges the edit into the addressed
offset and "recomputes current bounds immediately if in RealTime mode". -/
def setOffset (now : Int) (w : Which) (e : OffsetEdit) (st : TCState) : TCState :=
  let st' :=
    match w with
    | Which.startField => { st with startOffset := applyOffsetEdit st.startOffset e }
    | Which.endField => { st with endOffset := applyOffsetEdit st.endOffset e }
  match st'.mode with
  | Mode.RealTime => recomputeBounds now st'
  | Mode.Fixed => st'

/-- A candidate timestamp as typed into a fixed date field.  Host date
parsing is not part of the supplied sources, so a candidate is modelled by
its parse outcome: either a raw string native date parsing rejects, or a
well-formed instant in epoch milliseconds. -/
inductive TimestampInput where
  | malformed (raw : String)
  | wellFormed (t : Int)
deriving DecidableEq

/-- Modelled from the spec: "a candidate timestamp string is parsed; parse
failure ... marks the field invalid". -/
def parseTimestamp : TimestampInput → Option Int
  | TimestampInput.malformed _ => none
  | TimestampInput.wellFormed t => some t

/-- Modelled from the spec: `setFixedBounds(start, end) ->
Result<void, ValidationError>`.  Both candidates are parsed; the edit commits
(returning `true`) exactly when both parse and `start <= end`, updating the
committed bounds and marking both fields valid.  Otherwise nothing commits
and the offending fields are flagged: a malformed field is invalid, and a
field whose counterpart is malformed is validated pairwise against the
current committed value of the counterpart field. -/
def setFixedBounds (st : TCState) (a b : TimestampInput) : TCState × Bool :=
  match parseTimestamp a, parseTimestamp b with
  | some s, some e =>
      if s ≤ e then
        ({ st with
            startBound := s
            endBound := e
            startFieldValid := true
            endFieldValid := true }, true)
      else
        ({ st with startFieldValid := false, endFieldValid := false }, false)
  | some s, none =>
      ({ st with
          startFieldValid := decide (s ≤ st.endBound)
          endFieldValid := false }, false)
  | none, some e =>
      ({ st with
          startFieldValid := false
          endFieldValid := decide (st.startBound ≤ e) }, false)
  | none, none =>
      ({ st with startFieldValid := false, endFieldValid := false }, false)

/-- Zero padding to two digits, as used by the `HH:MM:SS` offset display. -/
def pad2 (n : Nat) : String :=
  if n < 10 then "0" ++ toString n else toString n

/-- Modelled from the spec: an offset "formatted for presentation, always
zero-padded two-digit fields, HH:MM:SS". -/
def Offset.display (o : Offset) : String :=
  pad2 o.hours ++ ":" ++ pad2 o.minutes ++ ":" ++ pad2 o.seconds

/-- The stored offset addressed by `w`. -/
def selectedOffset (w : Which) (st : TCState) : Offset :=
  match w with
  | Which.startField => st.startOffset
  | Which.endField => st.endOffset

/-- Modelled from the spec: `getDisplayOffset(which)` formats the addressed
stored offset as `HH:MM:SS`. -/
def getDisplayOffset (w : Which) (st : TCState) : String :=
  (selectedOffset w st).display

/-- Modelled from the spec: `serializeToNavigationState()` yields the
`startDelta`/`endDelta` query parameters (milliseconds) in real-time mode and
the absolute `start`/`end` parameters in fixed mode. -/
def serializeToNavigationState (st : TCState) : List (String × Int) :=
  match st.mode with
  | Mode.RealTime =>
      [("startDelta", (st.startOffset.toMillis : Int)),
       ("endDelta", (st.endOffset.toMillis : Int))]
  | Mode.Fixed =>
      [("start", st.startBound), ("end", st.endBound)]

/-- A conductor state with zero offsets, used as the base of the concrete
scenarios. -/
def initialTCState : TCState :=
  { mode := Mode.Fixed
    startBound := 0
    endBound := 86400000
    startOffset := ⟨0, 0, 0⟩
    endOffset := ⟨0, 0, 0⟩
    startFieldValid := true
    endFieldValid := true }

/-- A concrete search result used in counterexamples. -/
def sampleResult : SearchResult :=
  { name := "My Folder"
    type := "folder"
    identifier := ⟨"", "mine"⟩
    originalPath := [⟨"", "mine"⟩, ⟨"ROOT", "root"⟩] }

/-- The real-time scenario of the persistence e2e test: switch to real-time
mode, set the start offset to {minutes: 30, seconds: 23} and the end offset
to {seconds: 1}. -/
def realTimeScenario (now : Int) : TCState :=
  setOffset now Which.endField ⟨none, none, some 1⟩
    (setOffset now Which.startField ⟨none, some 30, some 23⟩
      (setMode now Mode.RealTime initialTCState))

/-- First step of the merge scenario: in real-time mode, edit only the
seconds component of the start offset to 23. -/
def mergeScenario1 : TCState :=
  setOffset 0 Which.startField ⟨none, none, some 23⟩
    (setMode 0 Mode.RealTime initialTCState)

/-- Second step of the merge scenario: a later edit supplying only
{minutes: 30}. -/
def mergeScenario2 : TCState :=
  setOffset 0 Which.startField ⟨none, some 30, none⟩ mergeScenario1

theorem runInterceptor_loaded_mono (evs : List InterceptorEvent) :
    ∀ st : InterceptorState, st.remoteClockLoaded = true →
      (runInterceptor st evs).remoteClockLoaded = true := by
  induction evs with
  | nil => intro st h; exact h
  | cons e evs ih =>
      intro st h
      cases e with
      | invokeEv request b => exact ih ⟨true⟩ rfl
      | queryEv c => exact ih st h

/-- C9: the remote-clock request interceptor fires at most once: appliesTo is
true exactly while the active clock is defined with key "remote-clock" and no
invoke has yet completed; after any invoke completes, appliesTo is false on
every subsequent call, whatever interactions follow. -/
theorem remoteClock_interceptor_fires_at_most_once :
    (∀ (c : Option Clock) (st : InterceptorState),
        appliesTo c st = true ↔
          ∃ cl, c = some cl ∧ cl.key = "remote-clock" ∧
            st.remoteClockLoaded = false)
    ∧ ∀ (st : InterceptorState) (request : Request Int) (b : Bounds)
        (evs : List InterceptorEvent) (c : Option Clock),
        appliesTo c
          (runInterceptor
            (stepInterceptor st (InterceptorEvent.invokeEv request b)) evs)
          = false := by
  constructor
  · intro c st
    cases c with
    | none => simp [appliesTo]
    | some cl =>
        cases h : st.remoteClockLoaded <;>
          simp [appliesTo, h]
  · intro st request b evs c
    have hload :
        (runInterceptor
          (stepInterceptor st (InterceptorEvent.invokeEv request b))
          evs).remoteClockLoaded = true :=
      runInterceptor_loaded_mono evs _ rfl
    cases c with
    | none => simp [appliesTo]
    | some cl => simp [appliesTo, hload]

/-- C10: invoke returns the request it was given with only the start and end
fields overwritten by the bounds obtained from waitForBounds; every other
field of the request is unchanged (and the loaded flag is set). -/
theorem invoke_overwrites_only_bounds (α : Type) (st : InterceptorState)
    (request : Request α) (b : Bounds) :
    (invoke st request b).2.start = b.start
    ∧ (invoke st request b).2.stop = b.stop
    ∧ (invoke st request b).2.rest = request.rest
    ∧ (invoke st request b).2 =
        { request with start := b.start, stop := b.stop }
    ∧ (invoke st request b).1.remoteClockLoaded = true :=
  ⟨rfl, rfl, rfl, rfl, rfl⟩

/-- C6 counterexample: when the composition policy rejects the result,
dragging exposes only two payload encodings, not three. -/
theorem dragStart_two_payloads_when_policy_rejects :
    ¬ ((dragStart false sampleResult).length = 3) := by
  decide

/-- C6 amended: dragging always exposes the serialized original path and the
keyed reference derived from the identifier of the result; the full
serialized result object is exposed as a third payload exactly when the host
composition policy allows composing the result into the navigated object. -/
theorem dragStart_payload_encodings (policyAllows : Bool) (r : SearchResult) :
    dragStart true r =
      [("openmct/composable-domain-object", DragPayload.serializedObject r),
       ("openmct/domain-object-path", DragPayload.serializedPath r.originalPath),
       ("openmct/domain-object/" ++ makeKeyString r.identifier,
         DragPayload.objectRef r)]
    ∧ dragStart false r =
      [("openmct/domain-object-path", DragPayload.serializedPath r.originalPath),
       ("openmct/domain-object/" ++ makeKeyString r.identifier,
         DragPayload.objectRef r)]
    ∧ (dragStart policyAllows r).length = if policyAllows then 3 else 2 := by
  refine ⟨rfl, rfl, ?_⟩
  cases policyAllows <;> rfl

/-- C7: with the editing flag set, clicking triggers the preview flow and
suppresses the default click behavior; otherwise it navigates to the url
built from the original path of the result, with every /ROOT occurrence
removed from that url first. -/
theorem clickedResult_dispatch (previewApplies : Bool)
    (urlOf : List Identifier → String) (r : SearchResult) :
    clickedResult true previewApplies urlOf r
      = ClickOutcome.previewed true previewApplies r.originalPath
    ∧ clickedResult false previewApplies urlOf r
      = ClickOutcome.navigated (stripRootFromUrl (urlOf r.originalPath))
    ∧ stripRootFromUrl "#/browse/ROOT/mine" = "#/browse/mine"
    ∧ stripRootFromUrl "#/browse/ROOT/a/ROOT/b" = "#/browse/a/b"
    ∧ stripRootFromUrl "#/browse/mine" = "#/browse/mine" := by
  refine ⟨rfl, rfl, by decide, by decide, by decide⟩

/-- C1: setFixedBounds succeeds exactly when both candidates parse and start
is at most end; on success the committed bounds are exactly the pair; on a
reversed pair or a malformed candidate it fails, the offending field is
flagged invalid, and the committed bounds are unchanged. -/
theorem setFixedBounds_validation (st : TCState) (a b : TimestampInput) :
    (∀ s e : Int, parseTimestamp a = some s → parseTimestamp b = some e →
        s ≤ e →
          (setFixedBounds st a b).2 = true
          ∧ (setFixedBounds st a b).1.startBound = s
          ∧ (setFixedBounds st a b).1.endBound = e)
    ∧ (∀ s e : Int, parseTimestamp a = some s → parseTimestamp b = some e →
        e < s →
          (setFixedBounds st a b).2 = false
          ∧ (setFixedBounds st a b).1.startFieldValid = false
          ∧ (setFixedBounds st a b).1.endFieldValid = false
          ∧ (setFixedBounds st a b).1.startBound = st.startBound
          ∧ (setFixedBounds st a b).1.endBound = st.endBound)
    ∧ (parseTimestamp a = none →
          (setFixedBounds st a b).2 = false
          ∧ (setFixedBounds st a b).1.startFieldValid = false
          ∧ (setFixedBounds st a b).1.startBound = st.startBound
          ∧ (setFixedBounds st a b).1.endBound = st.endBound)
    ∧ (parseTimestamp b = none →
          (setFixedBounds st a b).2 = false
          ∧ (setFixedBounds st a b).1.endFieldValid = false
          ∧ (setFixedBounds st a b).1.startBound = st.startBound
          ∧ (setFixedBounds st a b).1.endBound = st.endBound)
    ∧ ((setFixedBounds st a b).2 = true →
          ∃ s e : Int, parseTimestamp a = some s ∧ parseTimestamp b = some e
            ∧ s ≤ e) := by
  refine ⟨?_, ?_, ?_, ?_, ?_⟩
  · intro s e ha hb hle
    cases a with
    | malformed ra => exact absurd ha (by simp [parseTimestamp])
    | wellFormed s0 =>
        cases b with
        | malformed rb => exact absurd hb (by simp [parseTimestamp])
        | wellFormed e0 =>
            obtain rfl : s0 = s := by simpa [parseTimestamp] using ha
            obtain rfl : e0 = e := by simpa [parseTimestamp] using hb
            simp [setFixedBounds, parseTimestamp, hle]
  · intro s e ha hb hlt
    have hn : ¬ s ≤ e := not_le.mpr hlt
    cases a with
    | malformed ra => exact absurd ha (by simp [parseTimestamp])
    | wellFormed s0 =>
        cases b with
        | malformed rb => exact absurd hb (by simp [parseTimestamp])
        | wellFormed e0 =>
            obtain rfl : s0 = s := by simpa [parseTimestamp] using ha
            obtain rfl : e0 = e := by simpa [parseTimestamp] using hb
            simp [setFixedBounds, parseTimestamp, hn]
  · intro ha
    cases a with
    | wellFormed s0 => exact absurd ha (by simp [parseTimestamp])
    | malformed ra =>
        cases b with
        | malformed rb => simp [setFixedBounds, parseTimestamp]
        | wellFormed e0 => simp [setFixedBounds, parseTimestamp]
  · intro hb
    cases b with
    | wellFormed e0 => exact absurd hb (by simp [parseTimestamp])
    | malformed rb =>
        cases a with
        | malformed ra => simp [setFixedBounds, parseTimestamp]
        | wellFormed s0 => simp [setFixedBounds, parseTimestamp]
  · intro hsucc
    cases a with
    | malformed ra =>
        exfalso
        cases b <;> simp [setFixedBounds, parseTimestamp] at hsucc
    | wellFormed s0 =>
        cases b with
        | malformed rb =>
            exfalso
            simp [setFixedBounds, parseTimestamp] at hsucc
        | wellFormed e0 =>
            by_cases h : s0 ≤ e0
            · exact ⟨s0, e0, rfl, rfl, h⟩
            · exfalso
              simp [setFixedBounds, parseTimestamp, h] at hsucc

/-- C1 witness: a concrete valid pair commits, and a concrete reversed pair
is rejected leaving the bounds unchanged. -/
theorem setFixedBounds_validation_witness :
    (setFixedBounds initialTCState (TimestampInput.wellFormed 5)
        (TimestampInput.wellFormed 9)).2 = true
    ∧ (setFixedBounds initialTCState (TimestampInput.wellFormed 5)
        (TimestampInput.wellFormed 9)).1.startBound = 5
    ∧ (setFixedBounds initialTCState (TimestampInput.wellFormed 9)
        (TimestampInput.wellFormed 5)).2 = false
    ∧ (setFixedBounds initialTCState (TimestampInput.wellFormed 9)
        (TimestampInput.wellFormed 5)).1.startBound
        = initialTCState.startBound := by
  have hok := (setFixedBounds_validation initialTCState
    (TimestampInput.wellFormed 5) (TimestampInput.wellFormed 9)).1
    5 9 rfl rfl (by decide)
  have hbad := ((setFixedBounds_validation initialTCState
    (TimestampInput.wellFormed 9) (TimestampInput.wellFormed 5)).2.1)
    9 5 rfl rfl (by decide)
  exact ⟨hok.1, hok.2.1, hbad.1, hbad.2.2.2.1⟩

/-- C2: switching Fixed to RealTime to Fixed, and RealTime to Fixed to
RealTime, preserves the stored start and end offsets exactly; no mode switch
ever discards stored offsets. -/
theorem setMode_roundTrip_preserves_offsets (st : TCState) (n1 n2 : Int)
    (m : Mode) :
    ((setMode n2 Mode.Fixed (setMode n1 Mode.RealTime st)).startOffset
        = st.startOffset
      ∧ (setMode n2 Mode.Fixed (setMode n1 Mode.RealTime st)).endOffset
        = st.endOffset)
    ∧ ((setMode n2 Mode.RealTime (setMode n1 Mode.Fixed st)).startOffset
        = st.startOffset
      ∧ (setMode n2 Mode.RealTime (setMode n1 Mode.Fixed st)).endOffset
        = st.endOffset)
    ∧ ((setMode n1 m st).startOffset = st.startOffset
      ∧ (setMode n1 m st).endOffset = st.endOffset) := by
  refine ⟨⟨rfl, rfl⟩, ⟨rfl, rfl⟩, ?_⟩
  cases m <;> exact ⟨rfl, rfl⟩

/-- C3: after setting start offset {minutes: 30, seconds: 23} and end offset
{seconds: 1} in real-time mode, serializeToNavigationState yields exactly
startDelta = 1823000 and endDelta = 1000 milliseconds, the deltas appear as
the startDelta and endDelta query parameters, and the conversion is
hours*3600000 + minutes*60000 + seconds*1000. -/
theorem serializeToNavigationState_deltas :
    (∀ now : Int,
        serializeToNavigationState (realTimeScenario now)
          = [("startDelta", 1823000), ("endDelta", 1000)])
    ∧ (∀ o : Offset,
        o.toMillis = o.hours * 3600000 + o.minutes * 60000 + o.seconds * 1000)
    ∧ ("startDelta", (1823000 : Int))
        ∈ serializeToNavigationState (realTimeScenario 0)
    ∧ ("endDelta", (1000 : Int))
        ∈ serializeToNavigationState (realTimeScenario 0) := by
  have key : ∀ now : Int,
      serializeToNavigationState (realTimeScenario now)
        = [("startDelta", 1823000), ("endDelta", 1000)] := by
    intro now
    have hm : (realTimeScenario now).mode = Mode.RealTime := rfl
    have h1 : (realTimeScenario now).startOffset = ⟨0, 30, 23⟩ := rfl
    have h2 : (realTimeScenario now).endOffset = ⟨0, 0, 1⟩ := rfl
    rw [serializeToNavigationState, hm, h1, h2]
    norm_num [Offset.toMillis]
  refine ⟨key, fun o => rfl, ?_, ?_⟩ <;> rw [key 0] <;> simp

lemma pad2_length_of_le (n : Nat) (h : n ≤ 99) : (pad2 n).length = 2 := by
  have h100 : ∀ m : Nat, m < 100 → (pad2 m).length = 2 := by decide
  exact h100 n (Nat.lt_succ_of_le h)

/-- C4: getDisplayOffset formats the addressed stored offset as HH:MM:SS with
each field zero-padded to exactly two digits (for component values that fit
in two digits); in particular a start offset {minutes: 30, seconds: 23}
displays as 00:30:23 and an end offset {seconds: 1} displays as 00:00:01. -/
theorem getDisplayOffset_zero_padded (st : TCState) (w : Which)
    (h1 : (selectedOffset w st).hours ≤ 99)
    (h2 : (selectedOffset w st).minutes ≤ 99)
    (h3 : (selectedOffset w st).seconds ≤ 99) :
    getDisplayOffset w st
      = pad2 (selectedOffset w st).hours ++ ":"
        ++ pad2 (selectedOffset w st).minutes ++ ":"
        ++ pad2 (selectedOffset w st).seconds
    ∧ (pad2 (selectedOffset w st).hours).length = 2
    ∧ (pad2 (selectedOffset w st).minutes).length = 2
    ∧ (pad2 (selectedOffset w st).seconds).length = 2
    ∧ (getDisplayOffset w st).length = 8
    ∧ getDisplayOffset Which.startField
        (setOffset 0 Which.startField ⟨none, some 30, some 23⟩ initialTCState)
        = "00:30:23"
    ∧ getDisplayOffset Which.endField
        (setOffset 0 Which.endField ⟨none, none, some 1⟩ initialTCState)
        = "00:00:01" := by
  have e1 := pad2_length_of_le _ h1
  have e2 := pad2_length_of_le _ h2
  have e3 := pad2_length_of_le _ h3
  have hcolon : (":" : String).length = 1 := rfl
  refine ⟨rfl, e1, e2, e3, ?_, by decide, by decide⟩
  have hdisp : getDisplayOffset w st
      = pad2 (selectedOffset w st).hours ++ ":"
        ++ pad2 (selectedOffset w st).minutes ++ ":"
        ++ pad2 (selectedOffset w st).seconds := rfl
  simp [hdisp, String.length_append, e1, e2, e3, hcolon]

/-- C4 witness: the zero offsets of the initial state display as eight
characters of zero-padded HH:MM:SS. -/
theorem getDisplayOffset_zero_padded_witness :
    (getDisplayOffset Which.startField initialTCState).length = 8 := by
  exact (getDisplayOffset_zero_padded initialTCState Which.startField
    (by decide) (by decide) (by decide)).2.2.2.2.1

/-- C5: a start offset edit of {seconds: 23} alone displays as 00:00:23; a
second edit supplying {minutes: 30} merges with the previously set seconds,
displaying 00:30:23 — an edit to one component does not reset the others. -/
theorem offset_edits_merge :
    getDisplayOffset Which.startField mergeScenario1 = "00:00:23"
    ∧ getDisplayOffset Which.startField mergeScenario2 = "00:30:23"
    ∧ mergeScenario2.startOffset.seconds = mergeScenario1.startOffset.seconds
    ∧ (∀ (o : Offset) (m : Nat),
        (applyOffsetEdit o ⟨none, some m, none⟩).seconds = o.seconds
        ∧ (applyOffsetEdit o ⟨none, some m, none⟩).hours = o.hours) := by
  exact ⟨by decide, by decide, rfl, fun o m => ⟨rfl, rfl⟩⟩

/-- C8: with no clock tick in between (the same now), calling setMode
RealTime twice produces the same state, and in particular the same bounds, as
calling it once. -/
theorem setMode_realTime_idempotent (st : TCState) (now : Int) :
    setMode now Mode.RealTime (setMode now Mode.RealTime st)
      = setMode now Mode.RealTime st
    ∧ (setMode now Mode.RealTime (setMode now Mode.RealTime st)).startBound
      = (setMode now Mode.RealTime st).startBound
    ∧ (setMode now Mode.RealTime (setMode now Mode.RealTime st)).endBound
      = (setMode now Mode.RealTime st).endBound :=
  ⟨rfl, rfl, rfl⟩
